import Mathlib

set_option maxRecDepth 1000000

/-!
Shallow embedding of the Go build-ID extraction engine of this repository
(package `binary`: `Parse`, `getBuildID`, `readELF`) over byte lists.
Bytes are modelled as natural numbers; every multi-byte read reduces its
bytes modulo 256, and all machine arithmetic is performed with explicit
`% 2^32` / `% 2^64` where the Go code uses `uint32` / `uint64`.
A file handle is a byte list plus a cursor; reads never modify the list,
matching the read/seek-only interface `dio.ReadSeekerAt`.
-/

namespace GoBinary

/-! ### Constants from the source -/

def readSize : Nat := 32 * 1024

/-- The 4-byte ELF magic `\x7fELF`. -/
def elfMagic : List Nat := [0x7f, 0x45, 0x4c, 0x46]

/-- `elfGoNote = "Go\x00\x00"`. -/
def elfGoNote : List Nat := [0x47, 0x6f, 0x00, 0x00]

/-- `elfGNUNote = "GNU\x00"`. -/
def elfGNUNote : List Nat := [0x47, 0x4e, 0x55, 0x00]

/-- The thin-archive magic `!<arch>\n`. -/
def archMagic : List Nat := [0x21, 0x3c, 0x61, 0x72, 0x63, 0x68, 0x3e, 0x0a]

/-- The big-archive magic `<bigaf>\n`. -/
def bigafMagic : List Nat := [0x3c, 0x62, 0x69, 0x67, 0x61, 0x66, 0x3e, 0x0a]

def offsetToNoteData : Nat := 16
def offsetToNoteFields : Nat := 12
def sizeOfNoteNameAndValue : Nat := 4
def elfGoBuildIDTag : Nat := 4
def gnuBuildIDTag : Nat := 3

/-! ### Machine-word reads (little / big endian), as in `elf.ByteOrder` -/

/-- Read a 16-bit word at the head of `l` (`true` = little endian).
A read past the end of the buffer is a Go fault; all call sites are
guarded, so the out-of-range value is arbitrary (0). -/
def read2 (bo : Bool) : List Nat → Nat
  | b0 :: b1 :: _ =>
    if bo then b0 % 256 + (b1 % 256) * 256 else (b0 % 256) * 256 + b1 % 256
  | _ => 0

/-- Read a 32-bit word at the head of `l` (`true` = little endian). -/
def read4 (bo : Bool) : List Nat → Nat
  | b0 :: b1 :: b2 :: b3 :: _ =>
    if bo then
      b0 % 256 + (b1 % 256) * 256 + (b2 % 256) * 65536 + (b3 % 256) * 16777216
    else
      (b0 % 256) * 16777216 + (b1 % 256) * 65536 + (b2 % 256) * 256 + b3 % 256
  | _ => 0

/-- Read a 64-bit word at the head of `l` (`true` = little endian). -/
def read8 (bo : Bool) (l : List Nat) : Nat :=
  if bo then read4 bo l + read4 bo (l.drop 4) * 4294967296
  else read4 bo l * 4294967296 + read4 bo (l.drop 4)

/-- Serialize a 32-bit word (little / big endian); inverse of `read4`. -/
def w4 (bo : Bool) (n : Nat) : List Nat :=
  if bo then [n % 256, n / 256 % 256, n / 65536 % 256, n / 16777216 % 256]
  else [n / 16777216 % 256, n / 65536 % 256, n / 256 % 256, n % 256]

/-- `(x + 3) &^ 3` in `uint32` arithmetic, as in the note walk. -/
def align4 (x : Nat) : Nat := ((x + 3) % 4294967296) / 4 * 4

/-- `a &^ b` (AND NOT) for a machine word `a`: since every bit of
`a &&& b` is a bit of `a`, this equals `a - (a &&& b)`. -/
def andNot (a b : Nat) : Nat := a - a.land b

/-- The per-record advance `uint64(offsetToNoteFields + nameSize + valSize)`
computed on the already-aligned sizes; the sum is `uint32` arithmetic in the
source, hence the `% 2^32`. -/
def noteAdvance (nameSize4 valSize4 : Nat) : Nat :=
  (offsetToNoteFields + nameSize4 + valSize4) % 4294967296

/-! ### Error outcomes -/

/-- Error outcomes of the resolver.  `fault` models a Go runtime fault
(slice bounds out of range); `noTerm` models non-termination of the
record walk (the model runs on fuel). -/
inductive Err where
  | progNotSupported
  | ioErr
  | badELF
  | fault
  | noTerm
  deriving DecidableEq, Repr

/-- `err.Error()` text recorded in warnings. -/
def errText : Err → String
  | .progNotSupported => "Program not supported"
  | .ioErr => "unexpected EOF"
  | .badELF => "bad ELF header"
  | .fault => "runtime fault"
  | .noTerm => "no progress in note walk"

/-- The advance past the current record and the new running offset:
`off += notesz`, then, when the segment's alignment is nonzero, the
offset is rounded up with `(off + align - 1) &^ (align - 1)` and the
padding is added to the advance — all in `uint64` arithmetic. -/
def stepSize (align nsz off : Nat) : Nat × Nat :=
  let off' := (off + nsz) % 18446744073709551616
  if align = 0 then (nsz, off')
  else
    let alignedOff := andNot ((off' + align - 1) % 18446744073709551616) (align - 1)
    ((nsz + (alignedOff + 18446744073709551616 - off') % 18446744073709551616) %
        18446744073709551616,
      alignedOff)

/-! ### The note-record walk (`readELF`'s inner loop) -/

/-- Outcome of walking one note segment's records. -/
inductive WalkOut where
  | found (v : List Nat)
  | cont (gnu : List Nat)
  | fault
  | diverge
  deriving DecidableEq, Repr

/-- One note segment's record walk, transcribed from the
`for filesz >= offsetToNoteData` loop of `readELF`.  `gnu` is the
outer-loop fallback candidate (`[]` plays the role of the empty string);
`note` is the segment buffer, `off`/`filesz` the `uint64` loop state.
`fuel` bounds the iteration count: a `diverge` result models an
execution that makes no progress (the Go loop then spins forever). -/
def walkNote (bo : Bool) (align : Nat) (gnu note : List Nat) (off filesz : Nat) :
    Nat → WalkOut
  | 0 => .diverge
  | fuel + 1 =>
    if filesz < offsetToNoteData then .cont gnu
    else if note.length < 16 then .fault
    else
      let nameSize := read4 bo note
      let valSize := read4 bo (note.drop sizeOfNoteNameAndValue)
      let tag := read4 bo (note.drop 8)
      let nname := (note.drop offsetToNoteFields).take sizeOfNoteNameAndValue
      let hi := (offsetToNoteData + valSize) % 4294967296
      if nameSize = sizeOfNoteNameAndValue ∧ hi ≤ note.length % 4294967296 ∧
          tag = elfGoBuildIDTag ∧ nname = elfGoNote then
        if offsetToNoteData ≤ hi ∧ hi ≤ note.length then
          .found ((note.drop offsetToNoteData).take (hi - offsetToNoteData))
        else .fault
      else
        let gnuStep : Option (List Nat) :=
          if nameSize = sizeOfNoteNameAndValue ∧ hi ≤ note.length % 4294967296 ∧
              tag = gnuBuildIDTag ∧ nname = elfGNUNote then
            if offsetToNoteData ≤ hi ∧ hi ≤ note.length then
              some ((note.drop offsetToNoteData).take (hi - offsetToNoteData))
            else none
          else some gnu
        match gnuStep with
        | none => .fault
        | some gnu' =>
          let nsz := noteAdvance (align4 nameSize) (align4 valSize)
          if filesz ≤ nsz then .cont gnu'
          else
            let step := stepSize align nsz off
            if note.length < step.1 then .fault
            else
              walkNote bo align gnu' (note.drop step.1) step.2
                ((filesz + 18446744073709551616 - step.1) % 18446744073709551616) fuel

/-! ### Program headers and the sanitized ELF decode -/

/-- The fields of a 64-bit program-header entry the scan consumes
(`p.Type`, `p.Off`, `p.Filesz`, `p.Align`). -/
structure Prog where
  ptype : Nat
  off : Nat
  filesz : Nat
  align : Nat
  deriving DecidableEq, Repr

/-- `PT_NOTE`. -/
def ptNote : Nat := 4

/-- The in-place header rewrite of `readELF`: `e_shoff` (bytes 40–47) and
`e_shnum` (bytes 60–61) are set to zero so the decoder never touches
section headers. -/
def zeroSH (data : List Nat) : List Nat :=
  ((((((((((data.set 40 0).set 41 0).set 42 0).set 43 0).set 44 0).set 45
      0).set 46 0).set 47 0).set 60 0).set 61 0)

/-- Decode the 56-byte program-header entries, as `elf.NewFile` does for
`ELFCLASS64`; fails if an entry lies beyond the buffer. -/
def readProgs (bo : Bool) (d : List Nat) (phoff phentsize : Nat) :
    Nat → Option (List Prog)
  | 0 => some []
  | n + 1 =>
    let base := phoff + (phentsize * n)
    match readProgs bo d phoff phentsize n with
    | none => none
    | some ps =>
      if base + 56 ≤ d.length then
        some (ps ++ [⟨read4 bo (d.drop base), read8 bo (d.drop (base + 8)),
          read8 bo (d.drop (base + 32)), read8 bo (d.drop (base + 48))⟩])
      else none

/-- The part of `elf.NewFile` the scan relies on, for a 64-bit object:
magic, class, data encoding and version checks, the
`shoff = 0` consistency checks, then the program-header table.
Returns the byte order (`true` = little endian) and the `Progs` list. -/
def parseELF (d : List Nat) : Option (Bool × List Prog) :=
  if d.take 4 ≠ elfMagic then none
  else if d.getD 4 0 ≠ 2 then none
  else if d.getD 5 0 ≠ 1 ∧ d.getD 5 0 ≠ 2 then none
  else
    let bo := d.getD 5 0 = 1
    if d.getD 6 0 ≠ 1 then none
    else if d.length < 64 then none
    else if read4 bo (d.drop 20) ≠ 1 then none
    else
      let shoff := read8 bo (d.drop 40)
      let shnum := read2 bo (d.drop 60)
      let shstrndx := read2 bo (d.drop 62)
      if shoff = 0 ∧ shnum ≠ 0 then none
      else if 0 < shnum ∧ shnum ≤ shstrndx then none
      else if shoff ≠ 0 then none
      else
        match readProgs bo d (read8 bo (d.drop 32)) (read2 bo (d.drop 54))
            (read2 bo (d.drop 56)) with
        | none => none
        | some progs => some (bo, progs)

/-! ### Per-segment note buffer: in-window slice or seek-and-read -/

/-- Fetch one note segment's bytes: slice `data` when
`p.Off + p.Filesz < uint64(len(data))`, otherwise seek the raw handle to
`p.Off` and `io.ReadFull` exactly `p.Filesz` bytes.  `fault` is a Go
slice-bounds fault; the seek fails when `int64(p.Off)` is negative. -/
def noteFetch (file data : List Nat) (p : Prog) : Except Err (List Nat) :=
  let hi := (p.off + p.filesz) % 18446744073709551616
  if hi < data.length then
    if p.off ≤ hi then .ok ((data.drop p.off).take (hi - p.off)) else .error .fault
  else if 9223372036854775808 ≤ p.off then .error .ioErr
  else if p.off + p.filesz ≤ file.length then
    .ok ((file.drop p.off).take p.filesz)
  else .error .ioErr

/-- Cursor position after `noteFetch` (`ReadAt`-style slicing leaves the
cursor alone; the seek-and-read path moves it). -/
def noteFetchPos (file data : List Nat) (p : Prog) (pos : Nat) : Nat :=
  let hi := (p.off + p.filesz) % 18446744073709551616
  if hi < data.length then pos
  else if 9223372036854775808 ≤ p.off then pos
  else if p.off ≤ file.length then min (p.off + p.filesz) file.length
  else p.off

/-- The outer `for _, p := range ef.Progs` loop of `readELF`, threading
the GNU fallback candidate and the handle cursor. -/
def scanProgs (file data : List Nat) (bo : Bool) :
    List Prog → List Nat → Nat → Except Err (List Nat) × Nat
  | [], gnu, pos => (.ok gnu, pos)
  | p :: rest, gnu, pos =>
    if p.ptype ≠ ptNote ∨ p.filesz < offsetToNoteData then
      scanProgs file data bo rest gnu pos
    else
      match noteFetch file data p with
      | .error e => (.error e, noteFetchPos file data p pos)
      | .ok note =>
        let pos' := noteFetchPos file data p pos
        match walkNote bo p.align gnu note p.off p.filesz (note.length + 2) with
        | .found v => (.ok v, pos')
        | .cont gnu' => scanProgs file data bo rest gnu' pos'
        | .fault => (.error .fault, pos')
        | .diverge => (.error .noTerm, pos')

/-- `readELF`: class check, section-header neutralization, sanitized
decode, then the note scan.  The empty list is the empty build ID. -/
def readELF (file data : List Nat) (pos : Nat) : Except Err (List Nat) × Nat :=
  if data.length < 5 then (.error .fault, pos)
  else if data.getD 4 0 = 1 then (.error .progNotSupported, pos)
  else if data.getD 4 0 = 2 ∧ data.length < 62 then (.error .fault, pos)
  else
    let d := if data.getD 4 0 = 2 then zeroSH data else data
    match parseELF d with
    | none => (.error .badELF, pos)
    | some (bo, progs) => scanProgs file d bo progs [] pos

/-- `io.ReadFull(r, data)` with `data` a 32 KiB buffer: the bytes read
from the cursor, zero-padded to `readSize` (a short read is tolerated
by the caller, which keeps the zero tail). -/
def readFullPad (file : List Nat) (pos : Nat) : List Nat :=
  (file.drop pos).take readSize ++
    List.replicate (readSize - (file.length - pos)) 0

/-- `getBuildID` on a (file, cursor) pair: archive sniffing on the first
8 bytes, the 32 KiB buffered read, ELF magic check, then `readELF`.
Returns the result and the new cursor. -/
def getBuildIDCore (file : List Nat) (pos : Nat) : Except Err (List Nat) × Nat :=
  if file.length < 8 then (.error .ioErr, pos)
  else if file.take 8 ≠ archMagic then
    if file.take 8 = bigafMagic then (.error .progNotSupported, pos)
    else if file.length - pos = 0 then (.error .ioErr, pos)
    else
      let data := readFullPad file pos
      let pos' := pos + min readSize (file.length - pos)
      if data.take 4 = elfMagic then readELF file data pos'
      else (.error .progNotSupported, pos')
  else (.error .progNotSupported, pos)

/-- A seekable, randomly-readable handle: the byte content plus the
read/seek cursor.  No operation of the resolver writes the content. -/
structure Handle where
  file : List Nat
  pos : Nat

/-- `getBuildID` at the handle level. -/
def getBuildID (h : Handle) : Except Err (List Nat) × Handle :=
  let r := getBuildIDCore h.file h.pos
  (r.1, ⟨h.file, r.2⟩)

/-! ### `Parse`: joining the module list with the build ID -/

/-- A module as reported by the external metadata reader. -/
structure GoModule where
  path : String
  version : String
  deriving DecidableEq, Repr

/-- A dependency entry: the module plus an optional replacement. -/
structure GoDep where
  path : String
  version : String
  replace : Option GoModule
  deriving DecidableEq, Repr

/-- An output library record. -/
structure GoLibrary where
  name : String
  version : String
  buildID : List Nat
  warnings : List String
  deriving DecidableEq, Repr

/-- `mod := dep; if dep.Replace != nil { mod = dep.Replace }`. -/
def effMod (d : GoDep) : GoModule := d.replace.getD ⟨d.path, d.version⟩

/-- The record-emission loop of `Parse`: skip empty paths, emit the
effective module with the shared build ID and warnings. -/
def assembleLibs (bid : List Nat) (warn : List String) : List GoDep → List GoLibrary
  | [] => []
  | d :: rest =>
    if d.path = "" then assembleLibs bid warn rest
    else ⟨(effMod d).path, (effMod d).version, bid, warn⟩ :: assembleLibs bid warn rest

/-- Build-ID / warnings pair computed by `Parse`: resolution runs only
when the dependency list is non-empty; an error is downgraded to a
warning and an empty build ID. -/
def parseBW (deps : List GoDep) (file : List Nat) (pos : Nat) :
    List Nat × List String :=
  if 0 < deps.length then
    match (getBuildIDCore file pos).1 with
    | .ok v => (v, [])
    | .error e => ([], [errText e])
  else ([], [])

/-- `convertError`: suffix-match the reader's error text onto the two
exported sentinels. -/
def convertError (e : String) : String :=
  if e.endsWith "unrecognized file format" then "unrecognized executable format"
  else if e.endsWith "not a Go executable" then "non go binary"
  else e

/-- `Parse`, with the external `buildinfo.Read` outcome supplied as an
oracle value: on success, resolve the build ID once and assemble the
library records. -/
def Parse (readRes : Except String (List GoDep)) (file : List Nat) (pos : Nat) :
    Except String (List GoLibrary) :=
  match readRes with
  | .error e => .error (convertError e)
  | .ok deps =>
    let bw := parseBW deps file pos
    .ok (assembleLibs bw.1 bw.2 deps)

/-! ### Synthetic note records and ELF images (for statements and witnesses) -/

/-- Pad `l` with zero bytes to length `n` (for `l.length ≤ n`). -/
def padTo (n : Nat) (l : List Nat) : List Nat := l ++ List.replicate (n - l.length) 0

/-- A serialized note record: the three 32-bit header fields
(`nameSize`, `valSize`, `tag`), the name padded to a 4-byte boundary,
then the value bytes. -/
def mkRec (bo : Bool) (tag : Nat) (name val : List Nat) : List Nat :=
  w4 bo name.length ++ (w4 bo val.length ++ (w4 bo tag ++
    (padTo (align4 name.length) name ++ val)))

/-- A minimal little-endian 64-bit ELF header: `e_phoff = 64`,
`e_phentsize = 56`, `phnum` program headers, no section headers. -/
def mkHeader (phnum : Nat) : List Nat :=
  [0x7f, 0x45, 0x4c, 0x46, 2, 1, 1, 0, 0, 0, 0, 0, 0, 0, 0, 0] ++
  [2, 0, 62, 0] ++ [1, 0, 0, 0] ++ List.replicate 8 0 ++
  [64, 0, 0, 0, 0, 0, 0, 0] ++ List.replicate 8 0 ++
  [0, 0, 0, 0] ++ [64, 0] ++ [56, 0] ++ [phnum, 0] ++ [0, 0] ++ [0, 0] ++ [0, 0]

/-- A serialized little-endian 56-byte program header. -/
def mkProg (ptype off filesz align : Nat) : List Nat :=
  w4 true ptype ++ w4 true 0 ++ (w4 true off ++ w4 true 0) ++
  List.replicate 16 0 ++ (w4 true filesz ++ w4 true 0) ++ List.replicate 8 0 ++
  (w4 true align ++ w4 true 0)

/-- Example Go build ID `"abcdef0123456789"`. -/
def exGv : List Nat := [97, 98, 99, 100, 101, 102, 48, 49, 50, 51, 52, 53, 54, 55, 56, 57]

/-- Example GNU build ID bytes. -/
def exHv : List Nat := [222, 173, 190, 239]

/-- A 152-byte ELF image with one `PT_NOTE` segment holding one
Go-tagged note (value `exGv`) at offset 120. -/
def exElfGo : List Nat :=
  mkHeader 1 ++ mkProg ptNote 120 32 0 ++ mkRec true elfGoBuildIDTag elfGoNote exGv

/-- A 228-byte ELF image with a GNU-tagged note segment (offset 176)
followed by a Go-tagged note segment (offset 196). -/
def exElf2 : List Nat :=
  mkHeader 2 ++ mkProg ptNote 176 20 0 ++ mkProg ptNote 196 32 0 ++
    mkRec true gnuBuildIDTag elfGNUNote exHv ++ mkRec true elfGoBuildIDTag elfGoNote exGv

/-- A 140-byte ELF image with only a GNU-tagged note. -/
def exElfGnu : List Nat :=
  mkHeader 1 ++ mkProg ptNote 120 20 0 ++ mkRec true gnuBuildIDTag elfGNUNote exHv

/-- A 128-byte ELF image whose only note segment declares a file size
below 16 bytes. -/
def exElfSmallNote : List Nat :=
  mkHeader 1 ++ mkProg ptNote 120 8 0 ++ [4, 0, 0, 0, 0, 0, 0, 0]

/-- A 260-byte ELF image with three program headers — a loadable
segment, a note segment whose file size (8) is below the 16-byte
minimum, and a note segment holding one record with unrecognized tag 5 —
so that no build-ID candidate exists. -/
def exElfNoCand : List Nat :=
  mkHeader 3 ++ mkProg 1 0 0 0 ++ mkProg ptNote 232 8 0 ++ mkProg ptNote 240 20 0 ++
    [4, 0, 0, 0, 0, 0, 0, 0] ++ mkRec true 5 [65, 66, 67, 68] [9, 9, 9, 9]

/-- A 20-byte note buffer: one well-formed record (`nameSize = 4`,
`valSize = 0`, tag 0) followed by 4 spare bytes. -/
def cexNoteAlign : List Nat := w4 true 4 ++ w4 true 0 ++ w4 true 0 ++ [65, 65, 65, 65] ++ [0, 0, 0, 0]

/-- A 44-byte note buffer: a record with `nameSize = valSize = 0`
(12 bytes) immediately followed by a Go-tagged record at offset 12. -/
def cexNoteAdvance : List Nat :=
  w4 true 0 ++ w4 true 0 ++ w4 true 0 ++ mkRec true elfGoBuildIDTag elfGoNote exGv

/-- A program-header entry that the scan passes over without recording
any candidate: not a note segment, note too small, or a single
well-formed record matching neither recognized (tag, name) pair. -/
def ProgNoCandidate (file d : List Nat) (bo : Bool) (p : Prog) : Prop :=
  p.ptype ≠ ptNote ∨ p.filesz < offsetToNoteData ∨
    ∃ tag name val, noteFetch file d p = .ok (mkRec bo tag name val) ∧
      p.filesz = 16 + val.length ∧ name.length = 4 ∧ tag < 4294967296 ∧
      val.length ≤ 4294967276 ∧
      ¬(tag = elfGoBuildIDTag ∧ name = elfGoNote) ∧
      ¬(tag = gnuBuildIDTag ∧ name = elfGNUNote)

instance : DecidableEq (Except Err (List Nat)) := fun a b =>
  match a, b with
  | .error x, .error y =>
    if h : x = y then .isTrue (by rw [h]) else .isFalse (by intro hh; cases hh; exact h rfl)
  | .ok x, .ok y =>
    if h : x = y then .isTrue (by rw [h]) else .isFalse (by intro hh; cases hh; exact h rfl)
  | .error _, .ok _ => .isFalse (by intro hh; cases hh)
  | .ok _, .error _ => .isFalse (by intro hh; cases hh)

/-! ## Basic lemmas on the byte-level helpers -/

lemma w4_length (bo : Bool) (n : Nat) : (w4 bo n).length = 4 := by
  cases bo <;> rfl

lemma read4_w4 (bo : Bool) (n : Nat) (rest : List Nat) :
    read4 bo (w4 bo n ++ rest) = n % 4294967296 := by
  cases bo <;> simp [w4, read4] <;> omega

lemma drop4_w4 (bo : Bool) (n : Nat) (rest : List Nat) :
    (w4 bo n ++ rest).drop 4 = rest := by
  cases bo <;> simp [w4]

lemma align4_of_le (x : Nat) (h : x + 3 < 4294967296) :
    align4 x = (x + 3) / 4 * 4 := by
  unfold align4
  rw [Nat.mod_eq_of_lt h]

lemma align4_ge (x : Nat) (h : x + 3 < 4294967296) : x ≤ align4 x := by
  rw [align4_of_le x h]
  omega

lemma align4_le (x : Nat) (h : x + 3 < 4294967296) : align4 x ≤ x + 3 := by
  rw [align4_of_le x h]
  omega

lemma padTo_eq_of_length (n : Nat) (l : List Nat) (h : l.length = n) :
    padTo n l = l := by
  simp [padTo, h]

lemma align4_four : align4 4 = 4 := by decide

lemma mkRec_length (bo : Bool) (tag : Nat) (name val : List Nat)
    (hn : name.length = 4) : (mkRec bo tag name val).length = 16 + val.length := by
  simp [mkRec, w4_length, hn, padTo, align4_four]
  omega

/-! ## The record walk on a single well-formed record -/

/-- Evaluation of one note segment holding exactly one record whose name
field is 4 bytes: a Go-tagged match returns the value, a GNU-tagged match
remembers it for the outer loop, anything else leaves the fallback
unchanged; in the latter two cases the `filesz <= notesz` break fires. -/
lemma walk_single (bo : Bool) (align : Nat) (gnu : List Nat) (tag : Nat)
    (name val : List Nat) (off fuel : Nat)
    (hn : name.length = 4) (htag : tag < 4294967296)
    (hv : val.length ≤ 4294967276) :
    walkNote bo align gnu (mkRec bo tag name val) off (16 + val.length) (fuel + 1) =
      if tag = elfGoBuildIDTag ∧ name = elfGoNote then .found val
      else if tag = gnuBuildIDTag ∧ name = elfGNUNote then .cont val
      else .cont gnu := by
  have hlen : (mkRec bo tag name val).length = 16 + val.length :=
    mkRec_length bo tag name val hn
  have h0 : read4 bo (mkRec bo tag name val) = 4 := by
    rw [mkRec, read4_w4, hn]
  have hd4 : (mkRec bo tag name val).drop 4 =
      w4 bo val.length ++ (w4 bo tag ++ (padTo (align4 name.length) name ++ val)) := by
    rw [mkRec, drop4_w4]
  have h4 : read4 bo ((mkRec bo tag name val).drop 4) = val.length := by
    rw [hd4, read4_w4, Nat.mod_eq_of_lt (by omega)]
  have hd8 : (mkRec bo tag name val).drop 8 =
      w4 bo tag ++ (padTo (align4 name.length) name ++ val) := by
    rw [show (8 : Nat) = 4 + 4 from rfl, ← List.drop_drop, hd4, drop4_w4]
  have h8 : read4 bo ((mkRec bo tag name val).drop 8) = tag := by
    rw [hd8, read4_w4, Nat.mod_eq_of_lt htag]
  have hd12 : (mkRec bo tag name val).drop 12 = name ++ val := by
    rw [show (12 : Nat) = 8 + 4 from rfl, ← List.drop_drop, hd8, drop4_w4,
      hn, align4_four, padTo_eq_of_length 4 name hn]
  have h12 : ((mkRec bo tag name val).drop 12).take 4 = name := by
    rw [hd12, List.take_left' hn]
  have hd16 : (mkRec bo tag name val).drop 16 = val := by
    rw [show (16 : Nat) = 12 + 4 from rfl, ← List.drop_drop, hd12, List.drop_left' hn]
  have hhi : (offsetToNoteData + val.length) % 4294967296 = 16 + val.length := by
    rw [offsetToNoteData, Nat.mod_eq_of_lt (by omega)]
  have hlenmod : (mkRec bo tag name val).length % 4294967296 = 16 + val.length := by
    rw [hlen, Nat.mod_eq_of_lt (by omega)]
  have hbreak : 16 + val.length ≤
      noteAdvance (align4 4) (align4 val.length) := by
    have h1 := align4_ge val.length (by omega)
    have h2 := align4_le val.length (by omega)
    rw [noteAdvance, offsetToNoteFields, align4_four, Nat.mod_eq_of_lt (by omega)]
    omega
  rw [walkNote]
  have hmod : (16 + val.length) % 4294967296 = 16 + val.length :=
    Nat.mod_eq_of_lt (by omega)
  have hbreak' : (16 + val.length ≤ noteAdvance (align4 4) (align4 val.length)) = True :=
    eq_true hbreak
  simp only [h0, h4, h8, offsetToNoteFields, h12, offsetToNoteData, hlen,
    sizeOfNoteNameAndValue, elfGoBuildIDTag, gnuBuildIDTag, hd16, hmod]
  simp only [true_and, and_true, le_refl, Nat.le_add_right, if_true,
    Nat.add_sub_cancel_left, List.take_length, hbreak',
    Nat.lt_irrefl, if_false, show ¬ (16 + val.length < 16) by omega]
  by_cases hgo : tag = 4 ∧ name = elfGoNote
  · simp only [if_pos hgo]
  · rw [if_neg hgo, if_neg hgo]
    by_cases hgnu : tag = 3 ∧ name = elfGNUNote
    · simp only [if_pos hgnu]
    · rw [if_neg hgnu, if_neg hgnu]

/-! ## More helpers on drops and round-up arithmetic -/

lemma padTo_length (n : Nat) (l : List Nat) (h : l.length ≤ n) :
    (padTo n l).length = n := by
  simp [padTo]
  omega

lemma drop_append_len (l₁ l₂ : List Nat) (k : Nat) :
    (l₁ ++ l₂).drop (l₁.length + k) = l₂.drop k := by
  rw [← List.drop_drop, List.drop_left]

lemma drop_w4_add (bo : Bool) (n : Nat) (rest : List Nat) (k : Nat) :
    (w4 bo n ++ rest).drop (4 + k) = rest.drop k := by
  rw [← List.drop_drop, drop4_w4]

lemma drop_padTo_add (n : Nat) (l rest : List Nat) (k : Nat) (h : l.length ≤ n) :
    (padTo n l ++ rest).drop (n + k) = rest.drop k := by
  rw [show n + k = (padTo n l).length + k by rw [padTo_length n l h], drop_append_len]

lemma drop_replicate_add (p : Nat) (rest : List Nat) (k : Nat) :
    (List.replicate p 0 ++ rest).drop (p + k) = rest.drop k := by
  rw [show p + k = (List.replicate p 0).length + k by rw [List.length_replicate],
    drop_append_len]

/-- Rounding `x` up to a multiple of `2^k` via the `(x + a - 1) &^ (a - 1)`
idiom equals adding the distance to the next multiple. -/
lemma roundUp_pow2 (x k : Nat) :
    (x + 2 ^ k - 1) - (x + 2 ^ k - 1) % 2 ^ k = x + (2 ^ k - x % 2 ^ k) % 2 ^ k := by
  have ha : 0 < 2 ^ k := Nat.two_pow_pos k
  have hd := Nat.div_add_mod x (2 ^ k)
  have hr : x % 2 ^ k < 2 ^ k := Nat.mod_lt x ha
  have hrle : x % 2 ^ k ≤ x := Nat.mod_le x (2 ^ k)
  rcases Nat.eq_zero_or_pos (x % 2 ^ k) with h0 | h1
  · have hm : (x + 2 ^ k - 1) % 2 ^ k = 2 ^ k - 1 := by
      have hx : x + 2 ^ k - 1 = 2 ^ k * (x / 2 ^ k) + (2 ^ k - 1) := by omega
      rw [hx, Nat.mul_add_mod,
        Nat.mod_eq_of_lt (show 2 ^ k - 1 < 2 ^ k by omega)]
    rw [hm, h0, Nat.sub_zero, Nat.mod_self]
    omega
  · have hm : (x + 2 ^ k - 1) % 2 ^ k = x % 2 ^ k - 1 := by
      have hx : x + 2 ^ k - 1 = 2 ^ k * (x / 2 ^ k + 1) + (x % 2 ^ k - 1) := by
        rw [Nat.mul_add, Nat.mul_one]
        omega
      rw [hx, Nat.mul_add_mod,
        Nat.mod_eq_of_lt (show x % 2 ^ k - 1 < 2 ^ k by omega)]
    rw [hm, Nat.mod_eq_of_lt (show 2 ^ k - x % 2 ^ k < 2 ^ k by omega)]
    omega

/-- `andNot` with an all-ones low mask is "clear the low `k` bits". -/
lemma andNot_pow2 (y k : Nat) : andNot y (2 ^ k - 1) = y - y % 2 ^ k := by
  rw [andNot, show Nat.land y (2 ^ k - 1) = y &&& (2 ^ k - 1) from rfl,
    Nat.and_pow_two_sub_one_eq_mod]

lemma stepSize_zero (nsz off : Nat) (h : off + nsz < 18446744073709551616) :
    stepSize 0 nsz off = (nsz, off + nsz) := by
  simp [stepSize, Nat.mod_eq_of_lt h]

lemma stepSize_pow2 (k nsz off : Nat)
    (h : off + nsz + 2 ^ k < 18446744073709551616) :
    stepSize (2 ^ k) nsz off =
      (nsz + (2 ^ k - (off + nsz) % 2 ^ k) % 2 ^ k,
        (off + nsz) + (2 ^ k - (off + nsz) % 2 ^ k) % 2 ^ k) := by
  have hk : 0 < 2 ^ k := Nat.two_pow_pos k
  have hp : (2 ^ k - (off + nsz) % 2 ^ k) % 2 ^ k < 2 ^ k :=
    Nat.mod_lt _ hk
  rw [stepSize]
  simp only [Nat.mod_eq_of_lt (show off + nsz < 18446744073709551616 by omega),
    if_neg (show ¬ (2 ^ k = 0) by omega)]
  rw [Nat.mod_eq_of_lt (show off + nsz + 2 ^ k - 1 < 18446744073709551616 by omega),
    andNot_pow2, roundUp_pow2]
  rw [show off + nsz + (2 ^ k - (off + nsz) % 2 ^ k) % 2 ^ k + 18446744073709551616 -
      (off + nsz) = (2 ^ k - (off + nsz) % 2 ^ k) % 2 ^ k + 18446744073709551616
      by omega]
  rw [Nat.add_mod_right, Nat.mod_eq_of_lt (show (2 ^ k - (off + nsz) % 2 ^ k) % 2 ^ k <
      18446744073709551616 by omega)]
  rw [Nat.mod_eq_of_lt (show nsz + (2 ^ k - (off + nsz) % 2 ^ k) % 2 ^ k <
      18446744073709551616 by omega)]

/-! ## Scanning lemmas -/

lemma scanProgs_skip (file d : List Nat) (bo : Bool) (p : Prog) (rest : List Prog)
    (gnu : List Nat) (pos : Nat)
    (h : p.ptype ≠ ptNote ∨ p.filesz < offsetToNoteData) :
    scanProgs file d bo (p :: rest) gnu pos = scanProgs file d bo rest gnu pos := by
  rw [scanProgs, if_pos h]

lemma scanProgs_note (file d : List Nat) (bo : Bool) (p : Prog) (rest : List Prog)
    (gnu note : List Nat) (pos : Nat)
    (hp : p.ptype = ptNote) (hs : ¬ p.filesz < offsetToNoteData)
    (hf : noteFetch file d p = .ok note) :
    scanProgs file d bo (p :: rest) gnu pos =
      match walkNote bo p.align gnu note p.off p.filesz (note.length + 2) with
      | .found v => (.ok v, noteFetchPos file d p pos)
      | .cont gnu' => scanProgs file d bo rest gnu' (noteFetchPos file d p pos)
      | .fault => (.error .fault, noteFetchPos file d p pos)
      | .diverge => (.error .noTerm, noteFetchPos file d p pos) := by
  rw [scanProgs, if_neg (fun hcon => hcon.elim (fun h1 => h1 hp) hs), hf]

lemma readELF_scan (file data : List Nat) (pos : Nat) (bo : Bool) (progs : List Prog)
    (hd4 : data.getD 4 0 = 2) (hlen : 62 ≤ data.length)
    (hparse : parseELF (zeroSH data) = some (bo, progs)) :
    readELF file data pos = scanProgs file (zeroSH data) bo progs [] pos := by
  rw [readELF, if_neg (by omega), if_neg (by rw [hd4]; omega),
    if_neg (fun hcon => absurd hlen (by omega))]
  simp only [hd4, if_pos rfl, if_true, hparse]

/-- C1: for a 64-bit ELF input whose program-header table decodes to a
generic-linker (GNU, tag 3, name `"GNU\0"`) note segment followed by a
toolchain-native (Go, tag 4, name `"Go\0\0"`) note segment, the scan
returns exactly the Go note's value bytes even though the GNU note
appears earlier in the segment list; and for an input containing only a
generic-linker note segment, the scan returns the GNU note's value. -/
theorem c1_go_note_precedence :
    (∀ (file data : List Nat) (pos : Nat) (bo : Bool) (p₁ p₂ : Prog)
        (hv gv : List Nat),
      data.getD 4 0 = 2 → 62 ≤ data.length →
      parseELF (zeroSH data) = some (bo, [p₁, p₂]) →
      p₁.ptype = ptNote → p₁.filesz = 16 + hv.length →
      noteFetch file (zeroSH data) p₁ = .ok (mkRec bo gnuBuildIDTag elfGNUNote hv) →
      hv.length ≤ 4294967276 →
      p₂.ptype = ptNote → p₂.filesz = 16 + gv.length →
      noteFetch file (zeroSH data) p₂ = .ok (mkRec bo elfGoBuildIDTag elfGoNote gv) →
      gv.length ≤ 4294967276 →
      (readELF file data pos).1 = .ok gv) ∧
    (∀ (file data : List Nat) (pos : Nat) (bo : Bool) (p : Prog) (hv : List Nat),
      data.getD 4 0 = 2 → 62 ≤ data.length →
      parseELF (zeroSH data) = some (bo, [p]) →
      p.ptype = ptNote → p.filesz = 16 + hv.length →
      noteFetch file (zeroSH data) p = .ok (mkRec bo gnuBuildIDTag elfGNUNote hv) →
      hv.length ≤ 4294967276 →
      (readELF file data pos).1 = .ok hv) := by
  constructor
  · intro file data pos bo p₁ p₂ hv gv hd4 hlen hparse h1t h1s h1f hhl h2t h2s h2f hgl
    rw [readELF_scan file data pos bo [p₁, p₂] hd4 hlen hparse]
    rw [scanProgs_note _ _ _ _ _ _ _ _ h1t (by rw [h1s, offsetToNoteData]; omega) h1f]
    rw [mkRec_length bo gnuBuildIDTag elfGNUNote hv rfl, h1s]
    rw [show 16 + hv.length + 2 = (16 + hv.length + 1) + 1 from rfl]
    rw [walk_single bo p₁.align [] gnuBuildIDTag elfGNUNote hv p₁.off _ rfl (by decide) hhl]
    rw [if_neg (by decide), if_pos (by decide)]
    show (scanProgs file (zeroSH data) bo [p₂] hv (noteFetchPos file (zeroSH data) p₁ pos)).1 = .ok gv
    rw [scanProgs_note _ _ _ _ _ _ _ _ h2t (by rw [h2s, offsetToNoteData]; omega) h2f]
    rw [mkRec_length bo elfGoBuildIDTag elfGoNote gv rfl, h2s]
    rw [show 16 + gv.length + 2 = (16 + gv.length + 1) + 1 from rfl]
    rw [walk_single bo p₂.align hv elfGoBuildIDTag elfGoNote gv p₂.off _ rfl (by decide) hgl]
    rw [if_pos (by decide)]
  · intro file data pos bo p hv hd4 hlen hparse h1t h1s h1f hhl
    rw [readELF_scan file data pos bo [p] hd4 hlen hparse]
    rw [scanProgs_note _ _ _ _ _ _ _ _ h1t (by rw [h1s, offsetToNoteData]; omega) h1f]
    rw [mkRec_length bo gnuBuildIDTag elfGNUNote hv rfl, h1s]
    rw [show 16 + hv.length + 2 = (16 + hv.length + 1) + 1 from rfl]
    rw [walk_single bo p.align [] gnuBuildIDTag elfGNUNote hv p.off _ rfl (by decide) hhl]
    rw [if_neg (by decide), if_pos (by decide)]
    rfl

/-- Witness for C1: the concrete 228-byte image `exElf2` (GNU note at
offset 176, Go note at offset 196) resolves to the Go value, and the
GNU-only image `exElfGnu` resolves to the GNU value. -/
theorem c1_go_note_precedence_witness :
    (readELF exElf2 exElf2 0).1 = .ok exGv ∧
    (readELF exElfGnu exElfGnu 0).1 = .ok exHv := by
  constructor
  · exact c1_go_note_precedence.1 exElf2 exElf2 0 true ⟨ptNote, 176, 20, 0⟩
      ⟨ptNote, 196, 32, 0⟩ exHv exGv (by decide) (by decide) (by decide) (by decide)
      (by decide) (by decide) (by decide) (by decide) (by decide) (by decide) (by decide)
  · exact c1_go_note_precedence.2 exElfGnu exElfGnu 0 true ⟨ptNote, 120, 20, 0⟩ exHv
      (by decide) (by decide) (by decide) (by decide) (by decide) (by decide) (by decide)

/-- The scan of a program-header list none of whose entries yields a
candidate leaves the GNU fallback empty and succeeds with the empty
build ID. -/
lemma scanProgs_no_candidate (file d : List Nat) (bo : Bool) :
    ∀ (progs : List Prog) (pos : Nat),
      (∀ p ∈ progs, ProgNoCandidate file d bo p) →
      (scanProgs file d bo progs [] pos).1 = .ok []
  | [], _, _ => rfl
  | p :: rest, pos, h => by
    have hrest : ∀ q ∈ rest, ProgNoCandidate file d bo q :=
      fun q hq => h q (List.mem_cons_of_mem p hq)
    rcases h p (List.mem_cons_self p rest) with h1 | h1 |
      ⟨tag, name, val, hf, hs, hn, htag, hvl, hngo, hngnu⟩
    · rw [scanProgs_skip _ _ _ _ _ _ _ (Or.inl h1)]
      exact scanProgs_no_candidate file d bo rest pos hrest
    · rw [scanProgs_skip _ _ _ _ _ _ _ (Or.inr h1)]
      exact scanProgs_no_candidate file d bo rest pos hrest
    · by_cases hp : p.ptype = ptNote
      · rw [scanProgs_note _ _ _ _ _ _ _ _ hp (by rw [hs, offsetToNoteData]; omega) hf]
        rw [mkRec_length bo tag name val hn, hs]
        rw [show 16 + val.length + 2 = (16 + val.length + 1) + 1 from rfl]
        rw [walk_single bo p.align [] tag name val p.off _ hn htag hvl]
        rw [if_neg hngo, if_neg hngnu]
        exact scanProgs_no_candidate file d bo rest _ hrest
      · rw [scanProgs_skip _ _ _ _ _ _ _ (Or.inl hp)]
        exact scanProgs_no_candidate file d bo rest pos hrest

/-- C5: for a 64-bit ELF input none of whose program-header entries
yields a build-ID candidate — each entry is not a note segment, or
declares a file size below 16 bytes, or holds a single well-formed
record matching neither the Go nor the GNU (tag, name) pair — the scan
returns the empty build ID with no error. -/
theorem c5_no_note_empty_ok (file data : List Nat) (pos : Nat) (bo : Bool)
    (progs : List Prog)
    (hd4 : data.getD 4 0 = 2) (hlen : 62 ≤ data.length)
    (hparse : parseELF (zeroSH data) = some (bo, progs))
    (hprogs : ∀ p ∈ progs, ProgNoCandidate file (zeroSH data) bo p) :
    (readELF file data pos).1 = .ok [] := by
  rw [readELF_scan file data pos bo progs hd4 hlen hparse]
  exact scanProgs_no_candidate file (zeroSH data) bo progs pos hprogs

/-- Witness for C5: the concrete image `exElfNoCand` — a loadable
segment, an 8-byte note segment, and a note segment with an
unrecognized tag — resolves to the empty build ID without error. -/
theorem c5_no_note_empty_ok_witness :
    (readELF exElfNoCand exElfNoCand 0).1 = .ok [] := by
  refine c5_no_note_empty_ok exElfNoCand exElfNoCand 0 true
    [⟨1, 0, 0, 0⟩, ⟨ptNote, 232, 8, 0⟩, ⟨ptNote, 240, 20, 0⟩]
    (by decide) (by decide) (by decide) ?_
  intro p hp
  simp only [List.mem_cons, List.not_mem_nil, or_false] at hp
  rcases hp with rfl | rfl | rfl
  · exact Or.inl (by decide)
  · exact Or.inr (Or.inl (by decide))
  · exact Or.inr (Or.inr ⟨5, [65, 66, 67, 68], [9, 9, 9, 9], by decide, by decide,
      by decide, by decide, by decide, by decide, by decide⟩)


/-- Stepping past one non-matching record: for a note buffer that starts
with a record whose tag matches neither recognized pair, followed by
`pad` alignment-padding bytes and the remaining records `rest`, one
iteration of the walk advances exactly
`12 + align4 nameSize + align4 valSize` bytes plus the alignment
padding, and continues on `rest` — `pad` is 0 when the alignment is 0
and the round-up distance when the alignment is a power of two. -/
lemma walk_step (bo : Bool) (align : Nat) (gnu : List Nat) (tag₁ : Nat)
    (name₁ val₁ rest : List Nat) (off pad fuel : Nat)
    (htag : tag₁ < 4294967296) (hgo : tag₁ ≠ elfGoBuildIDTag)
    (hgnu : tag₁ ≠ gnuBuildIDTag)
    (hn : name₁.length ≤ 1048576) (hv : val₁.length ≤ 1048576)
    (hrest : 16 ≤ rest.length)
    (hbound : off + (12 + align4 name₁.length + align4 val₁.length + pad + rest.length) +
      align < 18446744073709551616)
    (halign : (align = 0 ∧ pad = 0) ∨
      (∃ k, align = 2 ^ k ∧
        pad = (2 ^ k -
          (off + (12 + align4 name₁.length + align4 val₁.length)) % 2 ^ k) % 2 ^ k)) :
    walkNote bo align gnu
      (w4 bo name₁.length ++ (w4 bo val₁.length ++ (w4 bo tag₁ ++
        (padTo (align4 name₁.length) name₁ ++ (padTo (align4 val₁.length) val₁ ++
          (List.replicate pad 0 ++ rest))))))
      off (12 + align4 name₁.length + align4 val₁.length + pad + rest.length)
      (fuel + 1) =
    walkNote bo align gnu rest
      (off + (12 + align4 name₁.length + align4 val₁.length + pad)) rest.length fuel := by
  have hn3 : name₁.length + 3 < 4294967296 := by omega
  have hv3 : val₁.length + 3 < 4294967296 := by omega
  have hnge := align4_ge name₁.length hn3
  have hnle := align4_le name₁.length hn3
  have hvge := align4_ge val₁.length hv3
  have hvle := align4_le val₁.length hv3
  have hblen : (w4 bo name₁.length ++ (w4 bo val₁.length ++ (w4 bo tag₁ ++
      (padTo (align4 name₁.length) name₁ ++ (padTo (align4 val₁.length) val₁ ++
        (List.replicate pad 0 ++ rest)))))).length =
      12 + align4 name₁.length + align4 val₁.length + pad + rest.length := by
    simp [w4_length, padTo_length _ name₁ hnge, padTo_length _ val₁ hvge]
    omega
  have h0 : read4 bo (w4 bo name₁.length ++ (w4 bo val₁.length ++ (w4 bo tag₁ ++
      (padTo (align4 name₁.length) name₁ ++ (padTo (align4 val₁.length) val₁ ++
        (List.replicate pad 0 ++ rest)))))) = name₁.length := by
    rw [read4_w4, Nat.mod_eq_of_lt (show name₁.length < 4294967296 by omega)]
  have h4 : read4 bo ((w4 bo name₁.length ++ (w4 bo val₁.length ++ (w4 bo tag₁ ++
      (padTo (align4 name₁.length) name₁ ++ (padTo (align4 val₁.length) val₁ ++
        (List.replicate pad 0 ++ rest)))))).drop 4) = val₁.length := by
    rw [drop4_w4, read4_w4, Nat.mod_eq_of_lt (show val₁.length < 4294967296 by omega)]
  have h8 : read4 bo ((w4 bo name₁.length ++ (w4 bo val₁.length ++ (w4 bo tag₁ ++
      (padTo (align4 name₁.length) name₁ ++ (padTo (align4 val₁.length) val₁ ++
        (List.replicate pad 0 ++ rest)))))).drop 8) = tag₁ := by
    rw [show (8 : Nat) = 4 + 4 from rfl, ← List.drop_drop, drop4_w4, drop4_w4,
      read4_w4, Nat.mod_eq_of_lt htag]
  have hnsz : noteAdvance (align4 name₁.length) (align4 val₁.length) =
      12 + align4 name₁.length + align4 val₁.length := by
    rw [noteAdvance, offsetToNoteFields,
      Nat.mod_eq_of_lt (show 12 + align4 name₁.length + align4 val₁.length <
        4294967296 by omega)]
  have hdropbuf : (w4 bo name₁.length ++ (w4 bo val₁.length ++ (w4 bo tag₁ ++
      (padTo (align4 name₁.length) name₁ ++ (padTo (align4 val₁.length) val₁ ++
        (List.replicate pad 0 ++ rest)))))).drop
        (12 + align4 name₁.length + align4 val₁.length + pad) = rest := by
    rw [show 12 + align4 name₁.length + align4 val₁.length + pad =
        4 + (4 + (4 + (align4 name₁.length + (align4 val₁.length + (pad + 0))))) by omega,
      drop_w4_add, drop_w4_add, drop_w4_add, drop_padTo_add _ _ _ _ hnge,
      drop_padTo_add _ _ _ _ hvge, drop_replicate_add, List.drop_zero]
  have hstep : stepSize align (12 + align4 name₁.length + align4 val₁.length) off =
      (12 + align4 name₁.length + align4 val₁.length + pad,
        off + (12 + align4 name₁.length + align4 val₁.length + pad)) := by
    rcases halign with ⟨rfl, rfl⟩ | ⟨k, rfl, rfl⟩
    · rw [stepSize_zero (12 + align4 name₁.length + align4 val₁.length) off (by omega)]
      simp
    · rw [stepSize_pow2 k (12 + align4 name₁.length + align4 val₁.length) off
        (show off + (12 + align4 name₁.length + align4 val₁.length) + 2 ^ k <
          18446744073709551616 by omega)]
      simp only [Prod.mk.injEq, true_and]
      omega
  rw [walkNote]
  rw [if_neg (show ¬ (12 + align4 name₁.length + align4 val₁.length + pad + rest.length <
    offsetToNoteData) by rw [offsetToNoteData]; omega)]
  rw [hblen]
  rw [if_neg (show ¬ (12 + align4 name₁.length + align4 val₁.length + pad + rest.length < 16)
    by omega)]
  simp only [sizeOfNoteNameAndValue, offsetToNoteData, offsetToNoteFields, h0, h4, h8,
    hnsz, hstep, eq_false hgo, eq_false hgnu, and_false, false_and, if_false]
  rw [if_neg (show ¬ (12 + align4 name₁.length + align4 val₁.length + pad + rest.length ≤
    12 + align4 name₁.length + align4 val₁.length) by omega)]
  rw [if_neg (show ¬ (12 + align4 name₁.length + align4 val₁.length + pad + rest.length <
    12 + align4 name₁.length + align4 val₁.length + pad) by omega)]
  rw [hdropbuf]
  rw [show (12 + align4 name₁.length + align4 val₁.length + pad + rest.length +
      18446744073709551616 - (12 + align4 name₁.length + align4 val₁.length + pad)) =
      rest.length + 18446744073709551616 by omega,
    Nat.add_mod_right,
    Nat.mod_eq_of_lt (show rest.length < 18446744073709551616 by omega)]


/-- C2 counterexample: the walk advances past a record by
`12 + align4(nameSize) + align4(valSize)` bytes (`offsetToNoteFields`
is 12), not by `16 + align4(nameSize) + align4(valSize)` as claimed:
for `nameSize = valSize = 0` the advance is 12 and differs from the
claimed 16, and on the concrete buffer `cexNoteAdvance` — whose second
record starts at byte offset 12 — the scan finds the Go note there. -/
theorem c2_advance_counterexample :
    noteAdvance (align4 0) (align4 0) = 12 ∧
    ¬ (noteAdvance (align4 0) (align4 0) = 16 + align4 0 + align4 0) ∧
    walkNote true 0 [] cexNoteAdvance 0 44 46 = .found exGv :=
  ⟨by decide, by decide, by decide⟩

/-- C2 (amended): the walk advances past each record by
`12 + align4(nameSize) + align4(valSize)` bytes, and additionally rounds
the running offset up to the segment's declared alignment before
accounting for the next record.  Concretely, for a first record with
arbitrary sizes and an unrecognized tag followed by a Go-tagged record:
with alignment 0 the Go record is found exactly
`12 + align4(nameSize) + align4(valSize)` bytes in, and with alignment
`2^k` it is found after additionally skipping the round-up padding. -/
theorem c2_advance_amended :
    (∀ (bo : Bool) (gnu name₁ val₁ gv : List Nat) (tag₁ off fuel : Nat),
      tag₁ < 4294967296 → tag₁ ≠ elfGoBuildIDTag → tag₁ ≠ gnuBuildIDTag →
      name₁.length ≤ 1048576 → val₁.length ≤ 1048576 → gv.length ≤ 1048576 →
      off + (12 + align4 name₁.length + align4 val₁.length + (16 + gv.length)) <
        18446744073709551616 →
      walkNote bo 0 gnu
        (w4 bo name₁.length ++ (w4 bo val₁.length ++ (w4 bo tag₁ ++
          (padTo (align4 name₁.length) name₁ ++ (padTo (align4 val₁.length) val₁ ++
            mkRec bo elfGoBuildIDTag elfGoNote gv)))))
        off (12 + align4 name₁.length + align4 val₁.length + (16 + gv.length))
        (fuel + 2) = .found gv) ∧
    (∀ (bo : Bool) (gnu name₁ val₁ gv : List Nat) (tag₁ off k fuel : Nat),
      tag₁ < 4294967296 → tag₁ ≠ elfGoBuildIDTag → tag₁ ≠ gnuBuildIDTag →
      name₁.length ≤ 1048576 → val₁.length ≤ 1048576 → gv.length ≤ 1048576 →
      off + (12 + align4 name₁.length + align4 val₁.length +
        (2 ^ k - (off + (12 + align4 name₁.length + align4 val₁.length)) % 2 ^ k) % 2 ^ k +
        (16 + gv.length)) + 2 ^ k < 18446744073709551616 →
      walkNote bo (2 ^ k) gnu
        (w4 bo name₁.length ++ (w4 bo val₁.length ++ (w4 bo tag₁ ++
          (padTo (align4 name₁.length) name₁ ++ (padTo (align4 val₁.length) val₁ ++
            (List.replicate
              ((2 ^ k - (off + (12 + align4 name₁.length + align4 val₁.length)) % 2 ^ k)
                % 2 ^ k) 0 ++
              mkRec bo elfGoBuildIDTag elfGoNote gv))))))
        off
        (12 + align4 name₁.length + align4 val₁.length +
          (2 ^ k - (off + (12 + align4 name₁.length + align4 val₁.length)) % 2 ^ k) % 2 ^ k +
          (16 + gv.length))
        (fuel + 2) = .found gv) := by
  constructor
  · intro bo gnu name₁ val₁ gv tag₁ off fuel htag hgo hgnu hn hv hgv hb
    have hrlen : (mkRec bo elfGoBuildIDTag elfGoNote gv).length = 16 + gv.length :=
      mkRec_length bo elfGoBuildIDTag elfGoNote gv rfl
    have hstep := walk_step bo 0 gnu tag₁ name₁ val₁
      (mkRec bo elfGoBuildIDTag elfGoNote gv) off 0 (fuel + 1) htag hgo hgnu hn hv
      (by rw [hrlen]; omega) (by rw [hrlen]; omega) (Or.inl ⟨rfl, rfl⟩)
    rw [hrlen, Nat.add_zero, List.replicate_zero, List.nil_append] at hstep
    rw [hstep]
    rw [walk_single bo 0 gnu elfGoBuildIDTag elfGoNote gv _ fuel rfl (by decide) (by omega)]
    simp
  · intro bo gnu name₁ val₁ gv tag₁ off k fuel htag hgo hgnu hn hv hgv hb
    have hrlen : (mkRec bo elfGoBuildIDTag elfGoNote gv).length = 16 + gv.length :=
      mkRec_length bo elfGoBuildIDTag elfGoNote gv rfl
    have hstep := walk_step bo (2 ^ k) gnu tag₁ name₁ val₁
      (mkRec bo elfGoBuildIDTag elfGoNote gv) off
      ((2 ^ k - (off + (12 + align4 name₁.length + align4 val₁.length)) % 2 ^ k) % 2 ^ k)
      (fuel + 1) htag hgo hgnu hn hv
      (by rw [hrlen]; omega) (by rw [hrlen]; omega) (Or.inr ⟨k, rfl, rfl⟩)
    rw [hrlen] at hstep
    rw [hstep]
    rw [walk_single bo (2 ^ k) gnu elfGoBuildIDTag elfGoNote gv _ fuel rfl (by decide)
      (by omega)]
    simp

/-- Witness for C2 (amended): both conjuncts instantiated at concrete
records — alignment 0 with an empty-name, empty-value first record, and
alignment `32 = 2^5` with an unaligned running offset, so 12 bytes of
round-up padding precede the Go record. -/
theorem c2_advance_amended_witness :
    walkNote true 0 [] (w4 true 0 ++ (w4 true 0 ++ (w4 true 7 ++
        (padTo (align4 0) [] ++ (padTo (align4 0) [] ++
          mkRec true elfGoBuildIDTag elfGoNote exGv)))))
      5 (12 + align4 0 + align4 0 + (16 + exGv.length)) 7 = .found exGv ∧
    walkNote true (2 ^ 5) [] (w4 true 4 ++ (w4 true 0 ++ (w4 true 7 ++
        (padTo (align4 4) [65, 65, 65, 65] ++ (padTo (align4 0) [] ++
          (List.replicate ((2 ^ 5 - (4 + (12 + align4 4 + align4 0)) % 2 ^ 5) % 2 ^ 5) 0 ++
            mkRec true elfGoBuildIDTag elfGoNote exGv))))))
      4 (12 + align4 4 + align4 0 +
          (2 ^ 5 - (4 + (12 + align4 4 + align4 0)) % 2 ^ 5) % 2 ^ 5 + (16 + exGv.length))
      9 = .found exGv :=
  ⟨c2_advance_amended.1 true [] [] [] exGv 7 5 5 (by decide) (by decide) (by decide)
      (by decide) (by decide) (by decide) (by decide),
    c2_advance_amended.2 true [] [65, 65, 65, 65] [] exGv 7 4 5 7 (by decide) (by decide)
      (by decide) (by decide) (by decide) (by decide) (by decide)⟩


/-- Any word read from a buffer of 7-bit bytes stays below `2^32 - 16`,
so the `16 + valSize` guard cannot wrap in `uint32` arithmetic. -/
lemma read4_lt_of_bytes (bo : Bool) (l : List Nat) (h : ∀ b ∈ l, b < 128) :
    read4 bo l < 4294967280 := by
  match l with
  | [] => exact (show (0 : Nat) < 4294967280 by omega)
  | [a] => exact (show (0 : Nat) < 4294967280 by omega)
  | [a, b] => exact (show (0 : Nat) < 4294967280 by omega)
  | [a, b, c] => exact (show (0 : Nat) < 4294967280 by omega)
  | a :: b :: c :: d :: rest =>
    have ha : a < 128 := h a (by simp)
    have hd : d < 128 := h d (by simp)
    rw [read4]
    cases bo
    · rw [if_neg (by simp)]
      omega
    · rw [if_pos rfl]
      omega

lemma noteAdvance_lt (a b : Nat) : noteAdvance a b < 4294967296 :=
  Nat.mod_lt _ (by omega)

lemma andNot_zero (y : Nat) : andNot y 0 = y := by
  rw [andNot, show Nat.land y 0 = y &&& 0 from rfl, Nat.and_zero, Nat.sub_zero]

/-- With segment alignment 0 or 1 the rounded advance equals the plain
record size. -/
lemma stepSize_fst_le_one (align nsz off : Nat) (ha : align ≤ 1)
    (hnsz : nsz < 4294967296) : (stepSize align nsz off).1 = nsz := by
  rcases Nat.le_one_iff_eq_zero_or_eq_one.mp ha with rfl | rfl
  · rw [stepSize]
    simp
  · have hoff : (off + nsz) % 18446744073709551616 < 18446744073709551616 :=
      Nat.mod_lt _ (by omega)
    rw [stepSize]
    simp only [if_neg (show ¬ (1 = 0) by omega)]
    rw [show (off + nsz) % 18446744073709551616 + 1 - 1 =
      (off + nsz) % 18446744073709551616 by omega]
    rw [Nat.mod_eq_of_lt hoff, show (1 : Nat) - 1 = 0 from rfl, andNot_zero]
    rw [show (off + nsz) % 18446744073709551616 + 18446744073709551616 -
        (off + nsz) % 18446744073709551616 = 18446744073709551616 by omega]
    rw [Nat.mod_self, Nat.add_zero,
      Nat.mod_eq_of_lt (show nsz < 18446744073709551616 by omega)]


/-- The record walk cannot fault — it never touches bytes outside the
note buffer — when the buffer length agrees with the remaining segment
size, that size fits in 32 bits, no 32-bit word read from the buffer can
wrap the `16 + valSize` guard, and the segment alignment is at most 1. -/
lemma walk_no_fault : ∀ (fuel : Nat) (bo : Bool) (align : Nat) (gnu note : List Nat)
    (off filesz : Nat), align ≤ 1 → note.length = filesz → filesz < 4294967296 →
    (∀ i, read4 bo (note.drop i) < 4294967280) →
    walkNote bo align gnu note off filesz fuel ≠ .fault
  | 0, bo, align, gnu, note, off, filesz, ha, hlen, hfs, hreads => by
    rw [walkNote]
    simp
  | fuel + 1, bo, align, gnu, note, off, filesz, ha, hlen, hfs, hreads => by
    rw [walkNote]
    by_cases h1 : filesz < offsetToNoteData
    · rw [if_pos h1]
      simp
    · rw [if_neg h1]
      rw [offsetToNoteData] at h1
      rw [if_neg (show ¬ (note.length < 16) by omega)]
      have hval := hreads 4
      have hhi : (16 + read4 bo (note.drop 4)) % 4294967296 =
          16 + read4 bo (note.drop 4) := Nat.mod_eq_of_lt (by omega)
      have hlm : note.length % 4294967296 = note.length := Nat.mod_eq_of_lt (by omega)
      have hfst := stepSize_fst_le_one align
        (noteAdvance (align4 (read4 bo note)) (align4 (read4 bo (note.drop 4)))) off
        ha (noteAdvance_lt _ _)
      simp only [sizeOfNoteNameAndValue, offsetToNoteData, offsetToNoteFields,
        hhi, hlm, hfst]
      have htail : ∀ g' : List Nat,
          (if filesz ≤ noteAdvance (align4 (read4 bo note))
              (align4 (read4 bo (note.drop 4))) then WalkOut.cont g'
            else if note.length < noteAdvance (align4 (read4 bo note))
                (align4 (read4 bo (note.drop 4))) then WalkOut.fault
              else walkNote bo align g'
                (note.drop (noteAdvance (align4 (read4 bo note))
                  (align4 (read4 bo (note.drop 4)))))
                (stepSize align (noteAdvance (align4 (read4 bo note))
                  (align4 (read4 bo (note.drop 4)))) off).2
                ((filesz + 18446744073709551616 -
                    noteAdvance (align4 (read4 bo note))
                      (align4 (read4 bo (note.drop 4)))) % 18446744073709551616)
                fuel) ≠ WalkOut.fault := by
        intro g'
        by_cases hbrk : filesz ≤ noteAdvance (align4 (read4 bo note))
            (align4 (read4 bo (note.drop 4)))
        · rw [if_pos hbrk]
          simp
        · rw [if_neg hbrk]
          rw [if_neg (show ¬ (note.length < noteAdvance (align4 (read4 bo note))
              (align4 (read4 bo (note.drop 4)))) by omega)]
          rw [show filesz + 18446744073709551616 -
              noteAdvance (align4 (read4 bo note)) (align4 (read4 bo (note.drop 4))) =
              (filesz - noteAdvance (align4 (read4 bo note))
                (align4 (read4 bo (note.drop 4)))) + 18446744073709551616 by omega,
            Nat.add_mod_right,
            Nat.mod_eq_of_lt (show filesz - noteAdvance (align4 (read4 bo note))
              (align4 (read4 bo (note.drop 4))) < 18446744073709551616 by omega)]
          exact walk_no_fault fuel bo align g' _ _ _ ha
            (by rw [List.length_drop, hlen])
            (by omega)
            (fun i => by rw [List.drop_drop]; exact hreads _)
      by_cases hgo : read4 bo note = 4 ∧
          16 + read4 bo (note.drop 4) ≤ note.length ∧
          read4 bo (note.drop 8) = elfGoBuildIDTag ∧
          (note.drop 12).take 4 = elfGoNote
      · rw [if_pos hgo, if_pos (show 16 ≤ 16 + read4 bo (note.drop 4) ∧
          16 + read4 bo (note.drop 4) ≤ note.length from ⟨by omega, hgo.2.1⟩)]
        simp
      · rw [if_neg hgo]
        by_cases hgnu : read4 bo note = 4 ∧
            16 + read4 bo (note.drop 4) ≤ note.length ∧
            read4 bo (note.drop 8) = gnuBuildIDTag ∧
            (note.drop 12).take 4 = elfGNUNote
        · rw [if_pos hgnu, if_pos (show 16 ≤ 16 + read4 bo (note.drop 4) ∧
            16 + read4 bo (note.drop 4) ≤ note.length from ⟨by omega, hgnu.2.1⟩)]
          exact htail _
        · rw [if_neg hgnu]
          exact htail _


/-- C10 counterexample: the record walk can slice past the end of the
note buffer.  On the 20-byte buffer `cexNoteAlign` (one well-formed
record, `nameSize = 4`, `valSize = 0`, tag 0) with segment alignment 32
and segment offset 4, the advance is padded from 16 to 28 bytes after
the `filesz <= notesz` break check, so `note[notesz:]` exceeds the
20-byte buffer: the walk faults (Go: slice bounds out of range). -/
theorem c10_oob_counterexample :
    walkNote true 32 [] cexNoteAlign 4 20 22 = .fault := by decide

/-- C10 (amended): the record walk never accesses bytes outside the note
buffer provided the buffer length agrees with the remaining segment
size, that size fits in 32 bits, no 32-bit word read from the buffer
reaches `2^32 - 16` (so the `16 + valSize` guard cannot wrap), and the
segment's declared alignment is at most 1 (so no inter-record padding is
inserted); a candidate value is extracted only under the code's
`16 + valSize ≤ len(note)` guard, which under these hypotheses is exact.
Without the alignment restriction the walk can fault
(`c10_oob_counterexample`). -/
theorem c10_no_oob_amended (bo : Bool) (align : Nat) (gnu note : List Nat)
    (off filesz fuel : Nat) (ha : align ≤ 1) (hlen : note.length = filesz)
    (hfs : filesz < 4294967296)
    (hreads : ∀ i, read4 bo (note.drop i) < 4294967280) :
    walkNote bo align gnu note off filesz fuel ≠ .fault :=
  walk_no_fault fuel bo align gnu note off filesz ha hlen hfs hreads

/-- Witness for the amended C10: the same buffer as the counterexample,
but with alignment 0, walks without a fault. -/
theorem c10_no_oob_amended_witness :
    walkNote true 0 [] cexNoteAlign 4 20 22 ≠ .fault :=
  c10_no_oob_amended true 0 [] cexNoteAlign 4 20 22 (by decide) (by decide) (by decide)
    (fun i => read4_lt_of_bytes true (cexNoteAlign.drop i)
      (fun b hb => (by decide : ∀ x ∈ cexNoteAlign, x < 128) b (List.mem_of_mem_drop hb)))


/-! ## zeroSH access lemmas -/

lemma getD_set_ne (l : List Nat) (i j a : Nat) (h : i ≠ j) :
    (l.set i a).getD j 0 = l.getD j 0 := by
  simp [List.getD_eq_getElem?_getD, List.getElem?_set_ne h]

lemma zeroSH_getD_lt (x : List Nat) (i : Nat) (h : i < 40) :
    (zeroSH x).getD i 0 = x.getD i 0 := by
  rw [zeroSH, getD_set_ne _ 61 i 0 (by omega), getD_set_ne _ 60 i 0 (by omega),
    getD_set_ne _ 47 i 0 (by omega), getD_set_ne _ 46 i 0 (by omega),
    getD_set_ne _ 45 i 0 (by omega), getD_set_ne _ 44 i 0 (by omega),
    getD_set_ne _ 43 i 0 (by omega), getD_set_ne _ 42 i 0 (by omega),
    getD_set_ne _ 41 i 0 (by omega), getD_set_ne _ 40 i 0 (by omega)]

lemma zeroSH_length (x : List Nat) : (zeroSH x).length = x.length := by
  simp [zeroSH, List.length_set]

lemma zeroSH_drop (x : List Nat) (k : Nat) (h : 62 ≤ k) :
    (zeroSH x).drop k = x.drop k := by
  rw [zeroSH, List.drop_set_of_lt _ _ (show 61 < k by omega),
    List.drop_set_of_lt _ _ (show 60 < k by omega),
    List.drop_set_of_lt _ _ (show 47 < k by omega),
    List.drop_set_of_lt _ _ (show 46 < k by omega),
    List.drop_set_of_lt _ _ (show 45 < k by omega),
    List.drop_set_of_lt _ _ (show 44 < k by omega),
    List.drop_set_of_lt _ _ (show 43 < k by omega),
    List.drop_set_of_lt _ _ (show 42 < k by omega),
    List.drop_set_of_lt _ _ (show 41 < k by omega),
    List.drop_set_of_lt _ _ (show 40 < k by omega)]

lemma parseELF_class (d : List Nat) (pr : Bool × List Prog)
    (h : parseELF d = some pr) : d.getD 4 0 = 2 := by
  by_cases h1 : d.take 4 ≠ elfMagic
  · rw [parseELF, if_pos h1] at h
    exact Option.noConfusion h
  · by_cases h2 : d.getD 4 0 ≠ 2
    · rw [parseELF, if_neg h1, if_pos h2] at h
      exact Option.noConfusion h
    · omega


/-- Fetching a note segment from a prefix buffer `file.take m` yields
the same bytes the raw file holds, whether the segment is inside the
window (slice) or beyond it (seek and read). -/
lemma noteFetch_take (file : List Nat) (m : Nat) (p : Prog)
    (hmlen : m ≤ file.length) (hfl : file.length < 9223372036854775808)
    (hoff : 62 ≤ p.off) (hfit : p.off + p.filesz ≤ file.length) :
    noteFetch file (zeroSH (file.take m)) p = .ok ((file.drop p.off).take p.filesz) := by
  have hdlen : (zeroSH (file.take m)).length = m := by
    rw [zeroSH_length, List.length_take]
    omega
  have hmod : (p.off + p.filesz) % 18446744073709551616 = p.off + p.filesz :=
    Nat.mod_eq_of_lt (by omega)
  rw [noteFetch]
  simp only [hmod, hdlen]
  by_cases hwin : p.off + p.filesz < m
  · rw [if_pos hwin, if_pos (Nat.le_add_right p.off p.filesz)]
    rw [zeroSH_drop _ _ hoff, List.drop_take, Nat.add_sub_cancel_left, List.take_take,
      Nat.min_eq_left (by omega)]
  · rw [if_neg hwin, if_neg (show ¬ (9223372036854775808 ≤ p.off) by omega),
      if_pos hfit]

/-- The prog scan's outcome depends on the buffer only through the bytes
each note segment's fetch returns. -/
lemma scanProgs_fetch_eq (file d₁ d₂ : List Nat) (bo : Bool) :
    ∀ (progs : List Prog) (gnu : List Nat) (pos₁ pos₂ : Nat),
      (∀ p ∈ progs, p.ptype = ptNote → ¬ p.filesz < offsetToNoteData →
        noteFetch file d₁ p = noteFetch file d₂ p) →
      (scanProgs file d₁ bo progs gnu pos₁).1 = (scanProgs file d₂ bo progs gnu pos₂).1
  | [], _, _, _, _ => rfl
  | p :: rest, gnu, pos₁, pos₂, h => by
    by_cases hskip : p.ptype ≠ ptNote ∨ p.filesz < offsetToNoteData
    · rw [scanProgs_skip _ _ _ _ _ _ _ hskip, scanProgs_skip _ _ _ _ _ _ _ hskip]
      exact scanProgs_fetch_eq file d₁ d₂ bo rest gnu _ _
        (fun q hq => h q (List.mem_cons_of_mem p hq))
    · have hp : p.ptype = ptNote := by
        by_contra hc
        exact hskip (Or.inl hc)
      have hs : ¬ p.filesz < offsetToNoteData := fun hc => hskip (Or.inr hc)
      have hfeq := h p (List.mem_cons_self p rest) hp hs
      cases hres : noteFetch file d₂ p with
      | error e =>
        simp only [scanProgs, if_neg hskip, hfeq, hres]
      | ok note =>
        simp only [scanProgs, if_neg hskip, hfeq, hres]
        cases hwalk : walkNote bo p.align gnu note p.off p.filesz (note.length + 2) with
        | found v => simp [hwalk]
        | cont g' =>
          simp only [hwalk]
          exact scanProgs_fetch_eq file d₁ d₂ bo rest g' _ _
            (fun q hq => h q (List.mem_cons_of_mem p hq))
        | fault => simp [hwalk]
        | diverge => simp [hwalk]

/-- C8: when a note segment lies beyond the buffered window the scanner
seeks the raw handle and reads exactly `fileSize` bytes, and the
resolved build ID is the same as if the segment's bytes had been inside
the buffered window: scanning with a short prefix buffer `file.take m`
and with a longer one `file.take n` that covers the segment gives
identical results. -/
theorem c8_out_of_window_equiv (file : List Nat) (m n pos pos' : Nat) (bo : Bool)
    (progs : List Prog)
    (hm : 64 ≤ m) (hmn : m ≤ n) (hn : n ≤ file.length)
    (hfl : file.length < 9223372036854775808)
    (hp1 : parseELF (zeroSH (file.take m)) = some (bo, progs))
    (hp2 : parseELF (zeroSH (file.take n)) = some (bo, progs))
    (hprogs : ∀ p ∈ progs, p.ptype = ptNote → 16 ≤ p.filesz →
      62 ≤ p.off ∧ p.off + p.filesz ≤ file.length) :
    (readELF file (file.take m) pos).1 = (readELF file (file.take n) pos').1 := by
  have hd4m : (file.take m).getD 4 0 = 2 := by
    rw [← zeroSH_getD_lt (file.take m) 4 (by omega)]
    exact parseELF_class _ _ hp1
  have hd4n : (file.take n).getD 4 0 = 2 := by
    rw [← zeroSH_getD_lt (file.take n) 4 (by omega)]
    exact parseELF_class _ _ hp2
  have hlm : 62 ≤ (file.take m).length := by
    rw [List.length_take]
    omega
  have hln : 62 ≤ (file.take n).length := by
    rw [List.length_take]
    omega
  rw [readELF_scan file (file.take m) pos bo progs hd4m hlm hp1,
    readELF_scan file (file.take n) pos' bo progs hd4n hln hp2]
  refine scanProgs_fetch_eq file _ _ bo progs [] pos pos' ?_
  intro p hp hptype hfs
  obtain ⟨ho, hfit⟩ := hprogs p hp hptype (by rw [offsetToNoteData] at hfs; omega)
  rw [noteFetch_take file m p (by omega) hfl ho hfit,
    noteFetch_take file n p (by omega) hfl ho hfit]

/-- Witness for C8: in the 153-byte image `exElfGo ++ [0]` the note
segment occupies bytes 120–152; with a 120-byte window the scanner must
seek-and-read, with a 153-byte window it slices — the results agree. -/
theorem c8_out_of_window_equiv_witness :
    (readELF (exElfGo ++ [0]) ((exElfGo ++ [0]).take 120) 0).1 =
      (readELF (exElfGo ++ [0]) ((exElfGo ++ [0]).take 153) 7).1 := by
  refine c8_out_of_window_equiv (exElfGo ++ [0]) 120 153 0 7 true
    [⟨ptNote, 120, 32, 0⟩] (by decide) (by decide) (by decide) (by decide)
    (by decide) (by decide) ?_
  intro p hp hptype hfs
  simp only [List.mem_cons, List.not_mem_nil, or_false] at hp
  subst hp
  exact ⟨by decide, by decide⟩


/-! ## Resolver-level and Parse-level claims -/

/-- C3 counterexample: an input whose first 8 bytes are the archive
magic `!<arch>\n` is NOT taken to member inspection — `getBuildID`
fails immediately with `errProgramNotSupported` — even when the member
bytes are a valid ELF object whose scan would yield a build ID (the
second conjunct shows the member `exElfGo` scans to `exGv`). -/
theorem c3_archive_counterexample :
    (getBuildIDCore (archMagic ++ exElfGo) 0).1 = .error .progNotSupported ∧
    (readELF exElfGo exElfGo 0).1 = .ok exGv :=
  ⟨by decide, by decide⟩

/-- C3 (amended): for every input whose first 8 bytes equal `!<arch>\n`
the resolver returns `errProgramNotSupported` immediately, without
moving the cursor and without inspecting the member bytes. -/
theorem c3_archive_amended (file : List Nat) (pos : Nat)
    (h : file.take 8 = archMagic) :
    (getBuildIDCore file pos).1 = .error .progNotSupported ∧
    (getBuildIDCore file pos).2 = pos := by
  have hlen : 8 ≤ file.length := by
    have := congrArg List.length h
    rw [List.length_take] at this
    rw [show archMagic.length = 8 from rfl] at this
    omega
  rw [getBuildIDCore, if_neg (by omega), if_neg (fun hc => hc h)]
  exact ⟨rfl, rfl⟩

/-- Witness for the amended C3. -/
theorem c3_archive_amended_witness :
    (getBuildIDCore (archMagic ++ exElfGo) 3).1 = .error .progNotSupported ∧
    (getBuildIDCore (archMagic ++ exElfGo) 3).2 = 3 :=
  c3_archive_amended (archMagic ++ exElfGo) 3 (by decide)

/-- C6: for every input whose first 8 bytes equal `<bigaf>\n` the
resolver returns `errProgramNotSupported`, the cursor does not move, and
the result is the same for any input with the same 8-byte prefix —
nothing beyond the prefix is read. -/
theorem c6_bigaf_rejected (file : List Nat) (pos : Nat)
    (h : file.take 8 = bigafMagic) :
    (getBuildIDCore file pos).1 = .error .progNotSupported ∧
    (getBuildIDCore file pos).2 = pos ∧
    (∀ g : List Nat, g.take 8 = bigafMagic →
      (getBuildIDCore g pos).1 = (getBuildIDCore file pos).1) := by
  have hstep : ∀ f : List Nat, f.take 8 = bigafMagic →
      getBuildIDCore f pos = (.error .progNotSupported, pos) := by
    intro f hf
    have hlen : 8 ≤ f.length := by
      have := congrArg List.length hf
      rw [List.length_take] at this
      rw [show bigafMagic.length = 8 from rfl] at this
      omega
    rw [getBuildIDCore, if_neg (by omega),
      if_pos (show f.take 8 ≠ archMagic by rw [hf]; decide), if_pos hf]
  refine ⟨by rw [hstep file h], by rw [hstep file h], ?_⟩
  intro g hg
  rw [hstep g hg, hstep file h]

/-- Witness for C6. -/
theorem c6_bigaf_rejected_witness :
    (getBuildIDCore (bigafMagic ++ [1, 2, 3]) 5).1 = .error .progNotSupported ∧
    (getBuildIDCore (bigafMagic ++ [1, 2, 3]) 5).2 = 5 ∧
    (∀ g : List Nat, g.take 8 = bigafMagic →
      (getBuildIDCore g 5).1 = (getBuildIDCore (bigafMagic ++ [1, 2, 3]) 5).1) :=
  c6_bigaf_rejected (bigafMagic ++ [1, 2, 3]) 5 (by decide)

/-- The emission loop of `Parse` is exactly: drop dependencies with
empty path, keep order, and emit the replacement's path and version when
a replacement is present. -/
lemma assembleLibs_eq (bid : List Nat) (warn : List String) :
    ∀ deps : List GoDep, assembleLibs bid warn deps =
      (deps.filter (fun d => !(d.path == ""))).map
        (fun d => ⟨(effMod d).path, (effMod d).version, bid, warn⟩)
  | [] => rfl
  | d :: rest => by
    rw [assembleLibs, List.filter_cons]
    by_cases hp : d.path = ""
    · rw [if_pos hp, if_neg (by simp [hp]), assembleLibs_eq bid warn rest]
    · rw [if_neg hp, if_pos (by simp [hp]), List.map_cons, assembleLibs_eq bid warn rest]

/-- `Parse` on a successful metadata read, in closed form. -/
lemma Parse_ok_eq (deps : List GoDep) (file : List Nat) (pos : Nat) :
    Parse (.ok deps) file pos =
      .ok ((deps.filter (fun d => !(d.path == ""))).map
        (fun d => ⟨(effMod d).path, (effMod d).version,
          (parseBW deps file pos).1, (parseBW deps file pos).2⟩)) := by
  rw [Parse, assembleLibs_eq]

/-- C7: `Parse` emits exactly one record per dependency with non-empty
path, in list order, using the replacement's path and version when a
replacement is present; the shared build ID and warnings are attached to
every record. -/
theorem c7_parse_emission (deps : List GoDep) (file : List Nat) (pos : Nat) :
    Parse (.ok deps) file pos =
      .ok ((deps.filter (fun d => !(d.path == ""))).map
        (fun d => ⟨(effMod d).path, (effMod d).version,
          (parseBW deps file pos).1, (parseBW deps file pos).2⟩)) :=
  Parse_ok_eq deps file pos

/-- C4: when the module-metadata read succeeds (non-empty dependency
list) but build-ID resolution fails, `Parse` still returns the full
filtered library list; every emitted record carries the error text as
its only warning and the empty build ID. -/
theorem c4_buildid_error_downgraded (deps : List GoDep) (file : List Nat)
    (pos : Nat) (e : Err)
    (he : (getBuildIDCore file pos).1 = .error e) (hne : 0 < deps.length) :
    Parse (.ok deps) file pos =
      .ok ((deps.filter (fun d => !(d.path == ""))).map
        (fun d => ⟨(effMod d).path, (effMod d).version, [], [errText e]⟩)) := by
  rw [Parse_ok_eq, parseBW, if_pos hne, he]

/-- Witness for C4: an empty file makes the 8-byte `ReadAt` fail, the
error is downgraded to a warning, and the empty-path entry is dropped. -/
theorem c4_buildid_error_downgraded_witness :
    Parse (.ok [⟨"github.com/a/b", "v1.2.3", none⟩, ⟨"", "Devel", none⟩]) [] 0 =
      .ok [⟨"github.com/a/b", "v1.2.3", [], [errText .ioErr]⟩] :=
  c4_buildid_error_downgraded [⟨"github.com/a/b", "v1.2.3", none⟩, ⟨"", "Devel", none⟩]
    [] 0 .ioErr (by decide) (by decide)

/-- C9: resolving the build ID twice on the same unmodified handle, with
the cursor reset to its original position between the calls, yields the
identical result — the resolver never writes the handle's content, and
its outcome is a function of the content and the starting cursor only.
In the embedding the handle's byte content is explicitly untouched, so
the second call is literally the same computation. -/
theorem c9_resolve_idempotent (h : Handle) :
    (getBuildID ⟨(getBuildID h).2.file, h.pos⟩).1 = (getBuildID h).1 ∧
    (getBuildID h).2.file = h.file :=
  ⟨rfl, rfl⟩

end GoBinary
